import Mathlib

/-!
Verification of the SecureStorage facade (src/src/index.ts).

The facade wraps a backing key-value store (the `Storage` interface of the
host platform, e.g. localStorage) and three caller-supplied functions:
a key transform (`hash`), a value encoder (`encrypt`) and a value decoder
(`decrypt`).  Values are serialized with the runtime's JSON functions
before encoding and deserialized after decoding.

Embedding choices:
- The backing store is the external collaborator described in spec sections
  3 and 6 (ordered collection of text pairs with get/set/remove/clear/keyAt/
  count).  It is modelled as an association list with unique keys kept in
  insertion order, overwrite-in-place on set, as browser storage behaves.
- `hash`, `encrypt`, `decrypt` are caller-supplied opaque functions and the
  JSON serializer/deserializer is the runtime's: all five are parameters,
  collected in a `Config`.  `JSON.parse` can throw, so it is modelled as
  `String → Option Val`; `none` is a parse error.
- A facade read can throw (parse failure), so `getItem` returns
  `Except Unit (Option Val)`: `Except.error ()` is a thrown error,
  `Except.ok none` the null result for an absent entry.
- `values()` / `entries()` map `getItem` over `keys()`; a thrown error
  aborts the whole call, which `mapExcept` reproduces.
-/

/-- The backing store: an ordered collection of (key, value) text pairs. -/
abbrev Storage := List (String × String)

namespace Storage

/-- Backing store read: text at the first matching key, or absent. -/
def getItem (st : Storage) (k : String) : Option String :=
  match st with
  | [] => none
  | (k2, v) :: rest => if k2 = k then some v else getItem rest k

/-- Backing store write: overwrite in place if the key is present,
append otherwise (insertion order preserved). -/
def setItem (st : Storage) (k v : String) : Storage :=
  match st with
  | [] => [(k, v)]
  | (k2, w) :: rest => if k2 = k then (k, v) :: rest else (k2, w) :: setItem rest k v

/-- Backing store removal: drop every pair at the key; absent key is a no-op. -/
def removeItem (st : Storage) (k : String) : Storage :=
  match st with
  | [] => []
  | (k2, w) :: rest => if k2 = k then removeItem rest k else (k2, w) :: removeItem rest k

/-- Backing store full clear. -/
def clear : Storage := []

/-- Backing store ordinal enumeration: the key at position `i`, or absent. -/
def key (st : Storage) (i : Nat) : Option String :=
  (st.get? i).map Prod.fst

/-- Backing store entry count. -/
def length (st : Storage) : Nat :=
  List.length st

end Storage

/-- The facade's injected functions: the key transform and the value
encoder/decoder from the constructor options (each defaulting to the
pass-through `through` when absent), plus the runtime JSON serializer and
deserializer used by `setItem`/`getItem`.  `parse` returns `none` on a
parse error (a thrown exception in the source). -/
structure Config (Val : Type) where
  hash : String → String
  encrypt : String → String
  decrypt : String → String
  stringify : Val → String
  parse : String → Option Val

/-- Left-to-right effectful map over `Except`, as JavaScript's
`Array.prototype.map` behaves when the callback can throw: the first
thrown error aborts the whole traversal. -/
def mapExcept {α : Type} (f : String → Except Unit α) : List String → Except Unit (List α)
  | [] => Except.ok []
  | k :: rest =>
    match f k with
    | Except.error e => Except.error e
    | Except.ok v =>
      match mapExcept f rest with
      | Except.error e => Except.error e
      | Except.ok vs => Except.ok (v :: vs)

namespace SecureStorage

variable {Val : Type}

/-- `SecureStorage.getItem`: transform the key, read the raw text, return
null when absent, otherwise decrypt and JSON-parse (a parse failure is
thrown, i.e. `Except.error`). -/
def getItem (c : Config Val) (st : Storage) (k : String) : Except Unit (Option Val) :=
  let hashedKey := c.hash k
  match Storage.getItem st hashedKey with
  | none => Except.ok none
  | some value =>
    let decryptedValue := c.decrypt value
    match c.parse decryptedValue with
    | none => Except.error ()
    | some v => Except.ok (some v)

/-- `SecureStorage.setItem`: transform the key, JSON-stringify the value,
encrypt it, and write the pair into the backing store. -/
def setItem (c : Config Val) (st : Storage) (k : String) (value : Val) : Storage :=
  let hashedKey := c.hash k
  let stringifiedValue := c.stringify value
  let encryptedValue := c.encrypt stringifiedValue
  Storage.setItem st hashedKey encryptedValue

/-- `SecureStorage.removeItem`: transform the key and delegate removal. -/
def removeItem (c : Config Val) (st : Storage) (k : String) : Storage :=
  Storage.removeItem st (c.hash k)

/-- `SecureStorage.clear`: delegate the full clear to the backing store. -/
def clear (_ : Storage) : Storage :=
  Storage.clear

/-- `SecureStorage.key`: delegate ordinal enumeration to the backing store. -/
def key (st : Storage) (i : Nat) : Option String :=
  Storage.key st i

/-- `SecureStorage.length`: delegate the count to the backing store. -/
def length (st : Storage) : Nat :=
  Storage.length st

/-- `SecureStorage.keys`: iterate ordinal positions `0..length-1`, keep the
key at each position when present, skip absent positions. -/
def keys (st : Storage) : List String :=
  (List.range (length st)).filterMap (fun i => key st i)

/-- `SecureStorage.values`: `getItem` mapped over `keys()`; the physical
keys are fed back through `getItem`, which re-applies the key transform. -/
def values (c : Config Val) (st : Storage) : Except Unit (List (Option Val)) :=
  mapExcept (fun k => getItem c st k) (keys st)

/-- `SecureStorage.entries`: key/value pairs, same composition as
`values()`. -/
def entries (c : Config Val) (st : Storage) : Except Unit (List (String × Option Val)) :=
  mapExcept (fun k => Except.map (fun v => (k, v)) (getItem c st k)) (keys st)

end SecureStorage

/-- Repeated facade writes: fold `SecureStorage.setItem` over a list of
logical (key, value) entries, left to right. -/
def writeAll {Val : Type} (c : Config Val) (st : Storage)
    (items : List (String × Val)) : Storage :=
  items.foldl (fun s kv => SecureStorage.setItem c s kv.1 kv.2) st

/-- Identity config over `Nat` values, with a concrete injective
serializer (`n` becomes `n` copies of the letter a) and its exact
inverse as deserializer, for evaluating the theorems at concrete
inputs. -/
def natIdConfig : Config Nat :=
  Config.mk (fun s => s) (fun s => s) (fun s => s)
    (fun n => String.mk (List.replicate n 'a'))
    (fun s => some s.data.length)

/-- Config whose deserializer rejects every string except the one it
knows, for exercising the parse-failure path. -/
def fussyConfig : Config Nat :=
  Config.mk (fun s => s) (fun s => s) (fun s => s)
    (fun n => String.mk (List.replicate n 'a'))
    (fun s => if s = "aa" then some 2 else none)

/-- Config whose key transform is the constant function to the single
key c: idempotent, but it collapses all logical keys to one physical
key. -/
def constHashConfig : Config Nat :=
  Config.mk (fun _ => "c") (fun s => s) (fun s => s)
    (fun n => String.mk (List.replicate n 'a'))
    (fun s => some s.data.length)

/-- Config whose key transform appends an exclamation mark: nowhere
idempotent, and no doubly-transformed key ever hits a stored entry. -/
def bangConfig : Config Nat :=
  Config.mk (fun s => s ++ "!") (fun s => s) (fun s => s)
    (fun n => String.mk (List.replicate n 'a'))
    (fun s => some s.data.length)

/-- Config whose (non-idempotent) key transform sends the logical key a
to the physical key x, the logical key b to y, and the physical key x
again to y: re-transforming the physical key x collides with the other
entry's physical key. -/
def collideConfig : Config Nat :=
  Config.mk
    (fun s => if s = "a" then "x" else if s = "b" then "y"
      else if s = "x" then "y" else if s = "y" then "z" else s)
    (fun s => s) (fun s => s)
    (fun n => String.mk (List.replicate n 'a'))
    (fun s => some s.data.length)

/-! Backing-store lemmas. -/

theorem Storage.getItem_setItem_self (st : Storage) (k v : String) :
    Storage.getItem (Storage.setItem st k v) k = some v := by
  induction st with
  | nil => simp [Storage.getItem, Storage.setItem]
  | cons kv rest ih =>
    obtain ⟨k2, w⟩ := kv
    by_cases h : k2 = k
    · simp [Storage.setItem, h, Storage.getItem]
    · simp [Storage.setItem, h, Storage.getItem, ih]

theorem Storage.getItem_setItem_ne (st : Storage) (k v p : String) (hne : p ≠ k) :
    Storage.getItem (Storage.setItem st k v) p = Storage.getItem st p := by
  induction st with
  | nil => simp [Storage.getItem, Storage.setItem, Ne.symm hne]
  | cons kv rest ih =>
    obtain ⟨k2, w⟩ := kv
    by_cases h : k2 = k
    · subst h
      simp [Storage.setItem, Storage.getItem, Ne.symm hne]
    · simp [Storage.setItem, h, Storage.getItem, ih]

theorem Storage.getItem_removeItem_self (st : Storage) (k : String) :
    Storage.getItem (Storage.removeItem st k) k = none := by
  induction st with
  | nil => simp [Storage.getItem, Storage.removeItem]
  | cons kv rest ih =>
    obtain ⟨k2, w⟩ := kv
    by_cases h : k2 = k
    · simp [Storage.removeItem, h, ih]
    · simp [Storage.removeItem, h, Storage.getItem, ih]

theorem Storage.removeItem_removeItem (st : Storage) (k : String) :
    Storage.removeItem (Storage.removeItem st k) k = Storage.removeItem st k := by
  induction st with
  | nil => rfl
  | cons kv rest ih =>
    obtain ⟨k2, w⟩ := kv
    by_cases h : k2 = k
    · simp [Storage.removeItem, h, ih]
    · simp [Storage.removeItem, h, ih]

theorem filterMap_range_get {α β : Type} (l : List α) (f : α → β) :
    (List.range l.length).filterMap (fun i => (l[i]?).map f) = l.map f := by
  induction l with
  | nil => simp
  | cons x xs ih =>
    rw [List.length_cons, List.range_succ_eq_map, List.filterMap_cons, List.filterMap_map]
    simp [Function.comp_def, ih]

theorem SecureStorage.keys_eq_map_fst (st : Storage) :
    SecureStorage.keys st = st.map Prod.fst := by
  have h := filterMap_range_get st Prod.fst
  simp only [← List.get?_eq_getElem?] at h
  exact h

theorem mapExcept_ok {α : Type} (f : String → Except Unit α) (g : String → α)
    (l : List String) (h : ∀ k ∈ l, f k = Except.ok (g k)) :
    mapExcept f l = Except.ok (l.map g) := by
  induction l with
  | nil => rfl
  | cons k rest ih =>
    have hk := h k (List.mem_cons_self k rest)
    have hrest := ih (fun a ha => h a (List.mem_cons_of_mem k ha))
    simp [mapExcept, hk, hrest]

theorem mapExcept_map_ok {α β : Type} (f : String → Except Unit β) (m : α → String)
    (g : α → β) (l : List α) (h : ∀ a ∈ l, f (m a) = Except.ok (g a)) :
    mapExcept f (l.map m) = Except.ok (l.map g) := by
  induction l with
  | nil => rfl
  | cons a rest ih =>
    have ha := h a (List.mem_cons_self a rest)
    have hrest := ih (fun b hb => h b (List.mem_cons_of_mem a hb))
    simp [mapExcept, ha, hrest]

/-! Claim theorems. -/

/-- C7: `keys()` is the ordered sequence obtained by querying the key at
each ordinal position `0..length-1` in order, keeping present results and
skipping absent positions; it equals the list of physical keys of the
backing store in enumeration order. -/
theorem C7_keys_ordinal_enumeration (st : Storage) :
    SecureStorage.keys st =
      (List.range (SecureStorage.length st)).filterMap (fun i => SecureStorage.key st i) ∧
    SecureStorage.keys st = st.map Prod.fst :=
  ⟨rfl, SecureStorage.keys_eq_map_fst st⟩

/-- C1: with a deterministic key transform and a decoder that exactly
inverts the encoder, and the JSON serializer round-tripping the value,
`setItem k v` followed by `getItem k` on the resulting store returns the
value (no other writer intervenes between the two calls). -/
theorem C1_set_get_roundtrip {Val : Type} (c : Config Val) (st : Storage)
    (k : String) (v : Val)
    (hdec : ∀ s, c.decrypt (c.encrypt s) = s)
    (hjson : c.parse (c.stringify v) = some v) :
    SecureStorage.getItem c (SecureStorage.setItem c st k v) k = Except.ok (some v) := by
  simp [SecureStorage.getItem, SecureStorage.setItem,
    Storage.getItem_setItem_self, hdec, hjson]

theorem C1_set_get_roundtrip_witness :
    SecureStorage.getItem natIdConfig
      (SecureStorage.setItem natIdConfig [] "k" 3) "k" = Except.ok (some 3) :=
  C1_set_get_roundtrip natIdConfig [] "k" 3 (fun _ => rfl) (by decide)

/-- C4: when the backing store has no entry at the transformed key,
`getItem` returns null without raising an error, and neither the value
decoder nor the deserializer is applied: the result is the same for every
decoder `d` and every deserializer `p`. -/
theorem C4_get_absent_null {Val : Type} (c : Config Val)
    (d : String → String) (p : String → Option Val) (st : Storage) (k : String)
    (habs : Storage.getItem st (c.hash k) = none) :
    SecureStorage.getItem (Config.mk c.hash c.encrypt d c.stringify p) st k =
      Except.ok none := by
  simp [SecureStorage.getItem, habs]

theorem C4_get_absent_null_witness :
    SecureStorage.getItem
      (Config.mk natIdConfig.hash natIdConfig.encrypt natIdConfig.decrypt
        natIdConfig.stringify natIdConfig.parse)
      [("other", "aa")] "missing" = Except.ok none :=
  C4_get_absent_null natIdConfig natIdConfig.decrypt natIdConfig.parse
    [("other", "aa")] "missing" (by decide)

/-- C5: after `clear()` the entry count is 0 and `getItem` returns null
for every key under every configuration, regardless of which facade
instance (or prior store state) produced the entries. -/
theorem C5_clear_empties {Val : Type} (c : Config Val) (st : Storage) (k : String) :
    SecureStorage.length (SecureStorage.clear st) = 0 ∧
      SecureStorage.getItem c (SecureStorage.clear st) k = Except.ok none := by
  constructor
  · rfl
  · rfl

/-- C6: `removeItem k` followed by `getItem k` returns null (the key
transform, a function, applies identically in both calls), and removing
the same key twice changes nothing the second time: removal of an absent
key is a no-op, not an error. -/
theorem C6_remove_then_get_null {Val : Type} (c : Config Val) (st : Storage) (k : String) :
    SecureStorage.getItem c (SecureStorage.removeItem c st k) k = Except.ok none ∧
      SecureStorage.removeItem c (SecureStorage.removeItem c st k) k =
        SecureStorage.removeItem c st k := by
  constructor
  · simp [SecureStorage.getItem, SecureStorage.removeItem,
      Storage.getItem_removeItem_self]
  · simp [SecureStorage.removeItem, Storage.removeItem_removeItem]

/-- C8: `setItem k v` stores under the transformed key exactly the encoder
applied to the serialization of `v`, overwriting whatever physical entry
was previously at that key (the equation holds for every prior store
state). -/
theorem C8_set_stores_encoded {Val : Type} (c : Config Val) (st : Storage)
    (k : String) (v : Val) :
    Storage.getItem (SecureStorage.setItem c st k v) (c.hash k) =
      some (c.encrypt (c.stringify v)) := by
  simp [SecureStorage.setItem, Storage.getItem_setItem_self]

/-- C9: when the raw text stored at the transformed key decodes to
something the deserializer rejects, `getItem` raises the error to the
caller: no catch, no default value, no retry. -/
theorem C9_parse_failure_propagates {Val : Type} (c : Config Val) (st : Storage)
    (k w : String)
    (hraw : Storage.getItem st (c.hash k) = some w)
    (hbad : c.parse (c.decrypt w) = none) :
    SecureStorage.getItem c st k = Except.error () := by
  simp [SecureStorage.getItem, hraw, hbad]

theorem C9_parse_failure_propagates_witness :
    SecureStorage.getItem fussyConfig [("k", "garbage")] "k" = Except.error () :=
  C9_parse_failure_propagates fussyConfig [("k", "garbage")] "k" "garbage"
    (by decide) (by decide)

/-- C10: `setItem k v` is frame-preserving: the raw text stored at every
physical key other than the transformed key `hash k` is unchanged by the
call, for every prior store state. -/
theorem C10_set_frame {Val : Type} (c : Config Val) (st : Storage)
    (k : String) (v : Val) (p : String) (hne : p ≠ c.hash k) :
    Storage.getItem (SecureStorage.setItem c st k v) p = Storage.getItem st p := by
  simp [SecureStorage.setItem, Storage.getItem_setItem_ne st (c.hash k) _ p hne]

/-- C3 (amended): the lookups performed by `values()` and `entries()`
re-apply the key transform to the already-physical keys returned by
`keys()`; whenever every doubly-transformed key is absent from the
backing store, every lookup produces null: `values()` is all-null
and every `entries()` pair carries null.  (When a doubly-transformed key
instead coincides with another physical entry, that entry's value is
returned rather than null, so absence of the doubly-transformed key is
required, not merely that it differ from the singly-transformed one.) -/
theorem C3_nonidempotent_lookup_miss {Val : Type} (c : Config Val) (st : Storage)
    (h : ∀ p ∈ SecureStorage.keys st, Storage.getItem st (c.hash p) = none) :
    SecureStorage.values c st =
      Except.ok (List.replicate (SecureStorage.length st) (none : Option Val)) ∧
    SecureStorage.entries c st =
      Except.ok ((SecureStorage.keys st).map (fun p => (p, (none : Option Val)))) := by
  have hget : ∀ p ∈ SecureStorage.keys st,
      SecureStorage.getItem c st p = Except.ok (none : Option Val) := by
    intro p hp
    simp [SecureStorage.getItem, h p hp]
  constructor
  · rw [SecureStorage.values,
      mapExcept_ok (fun k => SecureStorage.getItem c st k) (fun _ => none)
        (SecureStorage.keys st) hget]
    congr 1
    simp [SecureStorage.keys_eq_map_fst, SecureStorage.length, Storage.length,
      Function.comp_def, List.map_const']
  · rw [SecureStorage.entries,
      mapExcept_ok _ (fun p => (p, (none : Option Val))) (SecureStorage.keys st)
        (fun p hp => by rw [hget p hp]; rfl)]

theorem C3_nonidempotent_lookup_miss_witness :
    SecureStorage.values bangConfig [("a!", "a")] = Except.ok [(none : Option Nat)] ∧
    SecureStorage.entries bangConfig [("a!", "a")] =
      Except.ok [("a!", (none : Option Nat))] :=
  C3_nonidempotent_lookup_miss bangConfig [("a!", "a")] (by decide)

/-- C3 is false as frozen: under `collideConfig` the logical key a has
physical key x with doubly-transformed key y different from x, yet the
lookup for the entry stored at x returns the value of the other entry
(whose physical key is y), not null. -/
theorem C3_counterexample :
    collideConfig.hash (collideConfig.hash "a") ≠ collideConfig.hash "a" ∧
    SecureStorage.getItem collideConfig
      (writeAll collideConfig Storage.clear [("a", 1), ("b", 2)])
      (collideConfig.hash "a") = Except.ok (some 2) ∧
    SecureStorage.getItem collideConfig
      (writeAll collideConfig Storage.clear [("a", 1), ("b", 2)])
      (collideConfig.hash "a") ≠ Except.ok none ∧
    SecureStorage.values collideConfig
      (writeAll collideConfig Storage.clear [("a", 1), ("b", 2)]) =
      Except.ok [some 2, none] :=
  ⟨by decide, rfl, fun h => Option.noConfusion (Except.ok.inj h), rfl⟩

theorem C10_set_frame_witness :
    Storage.getItem
      (SecureStorage.setItem natIdConfig [("other", "aa")] "k" 3) "other" =
        Storage.getItem [("other", "aa")] "other" :=
  C10_set_frame natIdConfig [("other", "aa")] "k" 3 "other" (by decide)

theorem Storage.setItem_absent (st : Storage) (k v : String)
    (h : Storage.getItem st k = none) :
    Storage.setItem st k v = st ++ [(k, v)] := by
  induction st with
  | nil => rfl
  | cons kv rest ih =>
    obtain ⟨k2, w⟩ := kv
    rw [Storage.getItem] at h
    by_cases hk : k2 = k
    · simp [hk] at h
    · simp only [hk, if_false] at h
      simp [Storage.setItem, hk, ih h]

theorem Storage.getItem_append_of_none (st l2 : Storage) (p : String)
    (h : Storage.getItem st p = none) :
    Storage.getItem (st ++ l2) p = Storage.getItem l2 p := by
  induction st with
  | nil => rfl
  | cons kv rest ih =>
    obtain ⟨k2, w⟩ := kv
    rw [Storage.getItem] at h
    by_cases hk : k2 = p
    · simp [hk] at h
    · simp only [hk, if_false] at h
      simp only [List.cons_append, Storage.getItem, hk, if_false]
      exact ih h

theorem Storage.getItem_of_mem_nodup (l : Storage) (k v : String)
    (hnd : (l.map Prod.fst).Nodup) (hmem : (k, v) ∈ l) :
    Storage.getItem l k = some v := by
  induction l with
  | nil => cases hmem
  | cons kv2 rest ih =>
    obtain ⟨k2, w⟩ := kv2
    rw [List.map_cons, List.nodup_cons] at hnd
    obtain ⟨hnot, hnd2⟩ := hnd
    rcases List.mem_cons.mp hmem with heq | hmem2
    · rw [Prod.mk.injEq] at heq
      obtain ⟨h1, h2⟩ := heq
      subst h1
      subst h2
      simp [Storage.getItem]
    · by_cases hk : k2 = k
      · subst hk
        exact absurd (List.mem_map_of_mem Prod.fst hmem2) hnot
      · simp only [Storage.getItem, hk, if_false]
        exact ih hnd2 hmem2

theorem writeAll_of_fresh {Val : Type} (c : Config Val) (items : List (String × Val)) :
    ∀ st : Storage, (items.map (fun kv => c.hash kv.1)).Nodup →
      (∀ kv ∈ items, Storage.getItem st (c.hash kv.1) = none) →
      writeAll c st items =
        st ++ items.map (fun kv => (c.hash kv.1, c.encrypt (c.stringify kv.2))) := by
  induction items with
  | nil =>
    intro st _ _
    simp [writeAll]
  | cons kv rest ih =>
    intro st hnd habs
    obtain ⟨k, v⟩ := kv
    rw [List.map_cons, List.nodup_cons] at hnd
    obtain ⟨hnot, hnd2⟩ := hnd
    have hset : SecureStorage.setItem c st k v =
        st ++ [(c.hash k, c.encrypt (c.stringify v))] :=
      Storage.setItem_absent st _ _ (habs (k, v) (List.mem_cons_self _ _))
    have habs2 : ∀ kv2 ∈ rest,
        Storage.getItem (st ++ [(c.hash k, c.encrypt (c.stringify v))])
          (c.hash kv2.1) = none := by
      intro kv2 hkv2
      have hne : ¬ c.hash k = c.hash kv2.1 := by
        intro heq
        have hmem2 : c.hash kv2.1 ∈ rest.map (fun kv => c.hash kv.1) :=
          List.mem_map_of_mem _ hkv2
        rw [← heq] at hmem2
        exact hnot hmem2
      rw [Storage.getItem_append_of_none st _ _
        (habs kv2 (List.mem_cons_of_mem _ hkv2))]
      simp [Storage.getItem, hne]
    have hfold : writeAll c st ((k, v) :: rest) =
        writeAll c (SecureStorage.setItem c st k v) rest := rfl
    rw [hfold, hset, ih _ hnd2 habs2, List.append_assoc]
    rfl

/-- C2 (amended): with an idempotent key transform that sends the written
logical keys to pairwise distinct physical keys, a decoder that exactly
inverts the encoder, and a round-tripping serializer, `entries()` after
writing the entries into an initially empty store returns exactly one
pair per written entry, in order: the physical key paired with the value
written under the logical key whose transform is that physical key.
(Idempotence alone does not force distinct physical keys: a constant
transform is idempotent yet collapses all entries into one.) -/
theorem C2_entries_after_writes {Val : Type} (c : Config Val)
    (items : List (String × Val))
    (hnd : (items.map (fun kv => c.hash kv.1)).Nodup)
    (hid : ∀ s, c.hash (c.hash s) = c.hash s)
    (hdec : ∀ s, c.decrypt (c.encrypt s) = s)
    (hjson : ∀ v, c.parse (c.stringify v) = some v) :
    SecureStorage.entries c (writeAll c Storage.clear items) =
      Except.ok (items.map (fun kv => (c.hash kv.1, some kv.2))) ∧
    (items.map (fun kv => (c.hash kv.1, some kv.2))).length = items.length := by
  refine ⟨?_, List.length_map _ _⟩
  have hP : writeAll c Storage.clear items =
      items.map (fun kv => (c.hash kv.1, c.encrypt (c.stringify kv.2))) := by
    have h := writeAll_of_fresh c items Storage.clear hnd (fun kv _ => rfl)
    simpa [Storage.clear] using h
  have hPnd : ((items.map
      (fun kv => (c.hash kv.1, c.encrypt (c.stringify kv.2)))).map Prod.fst).Nodup := by
    rw [List.map_map]
    exact hnd
  have hkeys : SecureStorage.keys
      (items.map (fun kv => (c.hash kv.1, c.encrypt (c.stringify kv.2)))) =
      items.map (fun kv => c.hash kv.1) := by
    rw [SecureStorage.keys_eq_map_fst, List.map_map]
    rfl
  rw [SecureStorage.entries, hP, hkeys]
  refine mapExcept_map_ok _ (fun kv => c.hash kv.1)
    (fun kv => (c.hash kv.1, some kv.2)) items ?_
  intro kv hkv
  have hraw : Storage.getItem
      (items.map (fun kv => (c.hash kv.1, c.encrypt (c.stringify kv.2))))
      (c.hash kv.1) = some (c.encrypt (c.stringify kv.2)) :=
    Storage.getItem_of_mem_nodup _ _ _ hPnd (List.mem_map_of_mem _ hkv)
  simp [SecureStorage.getItem, hid, hraw, hdec, hjson, Except.map]

theorem natIdConfig_roundtrip (v : Nat) :
    natIdConfig.parse (natIdConfig.stringify v) = some v := by
  show some (List.replicate v 'a').length = some v
  simp

theorem C2_entries_after_writes_witness :
    SecureStorage.entries natIdConfig
      (writeAll natIdConfig Storage.clear [("a", 1), ("b", 2)]) =
      Except.ok [("a", some 1), ("b", some 2)] ∧
    ([("a", (some 1 : Option Nat)), ("b", some 2)]).length = 2 :=
  C2_entries_after_writes natIdConfig [("a", 1), ("b", 2)] (by decide)
    (fun _ => rfl) (fun _ => rfl) natIdConfig_roundtrip

/-- C2 is false as frozen: the constant transform to the key c is
idempotent, yet after writing the two distinct logical entries (a, 1)
and (b, 2) into an empty store, `entries()` returns a single pair, not
two. -/
theorem C2_counterexample :
    constHashConfig.hash (constHashConfig.hash "a") = constHashConfig.hash "a" ∧
    constHashConfig.hash (constHashConfig.hash "b") = constHashConfig.hash "b" ∧
    SecureStorage.entries constHashConfig
      (writeAll constHashConfig Storage.clear [("a", 1), ("b", 2)]) =
      Except.ok [("c", some 2)] ∧
    ([("c", (some 2 : Option Nat))]).length = 1 :=
  ⟨rfl, rfl, rfl, rfl⟩
